import Mathlib

/-!
Verification of the localfishing repository settings slice and HTTP client.

The development embeds, as executable Lean definitions:
  * the frontend `ApiClient.withRetry` loop (src/unnamed/part_001, lines 111-151),
  * the `user_settings` data model from migration 001
    (src/backend/src/routes/settings.routes.ts, lines 43-160): column defaults,
    CHECK constraints on enumerated columns, the unique index on user_id,
    the `update_user_settings_updated_at` trigger, the backfill INSERT and the
    `schema_migrations` tracking table,
  * the settings route pipeline (same file, lines 20-32), with the handler and
    middleware bodies, which are not part of the given sources, modelled from
    the specification.
-/

/-! ## HTTP client retry loop (src/unnamed/part_001) -/

/-- An HTTP response, reduced to the only field `withRetry` inspects: status. -/
structure Resp where
  status : Nat
deriving DecidableEq, Repr

/-- `response.ok` of the fetch API: status in the range 200-299. -/
def respOk (r : Resp) : Bool := decide (200 ≤ r.status ∧ r.status < 300)

/-- The guard `status >= 400 && status < 500 && status !== 429` of `withRetry`:
client errors other than 429 are returned without retry. -/
def noRetryStatus (r : Resp) : Bool :=
  decide (400 ≤ r.status ∧ r.status < 500 ∧ r.status ≠ 429)

/-- One attempt outcome: `Except.ok r` models `requestFn` resolving with
response `r`, `Except.error e` models `requestFn` throwing error `e`
(errors are abstracted to a numeric identity). -/
def Outcome : Type := Except Nat Resp

/-- Trace of one `withRetry` run: the final outcome (`Except.ok` a returned
response, `Except.error` a rethrown error), how many times `requestFn` was
invoked, and the sequence of backoff delays (in milliseconds) awaited. -/
structure RunTrace where
  result : Except Nat Resp
  calls : Nat
  delays : List Nat
deriving Repr

/-- The loop body of `ApiClient.withRetry` (src/unnamed/part_001 lines
117-148).  `f j` is the outcome of the `j`-th invocation of `requestFn`;
`attempt` is the loop counter; `fuel` bounds the remaining iterations and is
always instantiated to `retries + 1 - attempt`, which makes the `fuel = 0`
branch unreachable from `withRetry`. -/
def withRetryGo (f : Nat → Except Nat Resp) (retries : Nat) :
    Nat → Nat → RunTrace
  | _, 0 => ⟨Except.error 0, 0, []⟩
  | attempt, fuel + 1 =>
    match f attempt with
    | Except.ok r =>
      if noRetryStatus r then ⟨Except.ok r, 1, []⟩
      else if respOk r then ⟨Except.ok r, 1, []⟩
      else if attempt < retries then
        let rest := withRetryGo f retries (attempt + 1) fuel
        ⟨rest.result, rest.calls + 1, 2 ^ attempt * 1000 :: rest.delays⟩
      else ⟨Except.ok r, 1, []⟩
    | Except.error e =>
      if attempt < retries then
        let rest := withRetryGo f retries (attempt + 1) fuel
        ⟨rest.result, rest.calls + 1, 2 ^ attempt * 1000 :: rest.delays⟩
      else ⟨Except.error e, 1, []⟩

/-- `ApiClient.withRetry` (src/unnamed/part_001 lines 111-151): run
`requestFn` up to `retries + 1` times starting at attempt 0. -/
def withRetry (f : Nat → Except Nat Resp) (retries : Nat) : RunTrace :=
  withRetryGo f retries 0 (retries + 1)

/-- The exponential backoff schedule: `delaysFrom a n` lists the delays
`2 ^ j * 1000` for attempts `j = a, a+1, ..., a+n-1`. -/
def delaysFrom (a : Nat) : Nat → List Nat
  | 0 => []
  | n + 1 => 2 ^ a * 1000 :: delaysFrom (a + 1) n

/-- An outcome the loop retries when attempts remain: a thrown error, or a
response that is neither `ok` nor a non-429 client error. -/
def retryable (o : Except Nat Resp) : Bool :=
  match o with
  | Except.error _ => true
  | Except.ok r => !noRetryStatus r && !respOk r

/-- An outcome the specification singles out as retried: a thrown error, or a
response with a 5xx or 429 status. -/
def retry5xxOr429 (o : Except Nat Resp) : Bool :=
  match o with
  | Except.error _ => true
  | Except.ok r => decide (500 ≤ r.status ∨ r.status = 429)

theorem retryable_of_retry5xxOr429 (o : Except Nat Resp)
    (h : retry5xxOr429 o = true) : retryable o = true := by
  cases o with
  | error e => rfl
  | ok r =>
    simp only [retry5xxOr429, decide_eq_true_eq] at h
    simp only [retryable, noRetryStatus, respOk, Bool.and_eq_true,
      Bool.not_eq_true', decide_eq_false_iff_not]
    rcases h with h5 | h429
    · constructor
      · rintro ⟨-, hlt, -⟩; omega
      · rintro ⟨-, hlt⟩; omega
    · constructor
      · rintro ⟨-, -, hne⟩; exact hne h429
      · rintro ⟨-, hlt⟩; omega

theorem withRetryGo_first_return (f : Nat → Except Nat Resp) (retries : Nat)
    (r : Resp) (hr : (noRetryStatus r || respOk r) = true) :
    ∀ fuel attempt i, attempt + fuel = retries + 1 → attempt ≤ i → i ≤ retries →
    (∀ j, attempt ≤ j → j < i → retryable (f j) = true) →
    f i = Except.ok r →
    withRetryGo f retries attempt fuel =
      ⟨Except.ok r, i - attempt + 1, delaysFrom attempt (i - attempt)⟩ := by
  intro fuel
  induction fuel with
  | zero => intro attempt i hfuel hai hir hpre hi; omega
  | succ n ih =>
    intro attempt i hfuel hai hir hpre hi
    rcases Nat.eq_or_lt_of_le hai with heq | hlt
    · subst heq
      by_cases h1 : noRetryStatus r = true
      · simp [withRetryGo, hi, h1, delaysFrom]
      · have h2 : respOk r = true := by
          rcases Bool.or_eq_true _ _ |>.mp hr with hx | hx
          · exact absurd hx h1
          · exact hx
        simp [withRetryGo, hi, h1, h2, delaysFrom]
    · have hra : retryable (f attempt) = true := hpre attempt (Nat.le_refl _) hlt
      have hcont : attempt < retries := Nat.lt_of_lt_of_le hlt hir
      have hrec := ih (attempt + 1) i (by omega) hlt hir
        (fun j hj1 hj2 => hpre j (by omega) hj2) hi
      have hsub : i - attempt = (i - (attempt + 1)) + 1 := by omega
      cases hfa : f attempt with
      | ok q =>
        have hq : retryable (Except.ok q) = true := by rw [← hfa]; exact hra
        simp only [retryable, Bool.and_eq_true, Bool.not_eq_true'] at hq
        simp [withRetryGo, hfa, hq.1, hq.2, hcont, hrec, hsub, delaysFrom]
      | error e =>
        simp [withRetryGo, hfa, hcont, hrec, hsub, delaysFrom]

theorem withRetryGo_exhaust (f : Nat → Except Nat Resp) (retries : Nat) :
    ∀ fuel attempt, attempt + fuel = retries + 1 → attempt ≤ retries →
    (∀ j, attempt ≤ j → j ≤ retries → retryable (f j) = true) →
    withRetryGo f retries attempt fuel =
      ⟨f retries, retries - attempt + 1, delaysFrom attempt (retries - attempt)⟩ := by
  intro fuel
  induction fuel with
  | zero => intro attempt hfuel hle hpre; omega
  | succ n ih =>
    intro attempt hfuel hle hpre
    rcases Nat.eq_or_lt_of_le hle with heq | hlt
    · subst heq
      have hra : retryable (f attempt) = true :=
        hpre attempt (Nat.le_refl _) (Nat.le_refl _)
      cases hfa : f attempt with
      | ok q =>
        have hq : retryable (Except.ok q) = true := by rw [← hfa]; exact hra
        simp only [retryable, Bool.and_eq_true, Bool.not_eq_true'] at hq
        simp [withRetryGo, hfa, hq.1, hq.2, delaysFrom]
      | error e =>
        simp [withRetryGo, hfa, delaysFrom]
    · have hra : retryable (f attempt) = true :=
        hpre attempt (Nat.le_refl _) (Nat.le_of_lt hlt)
      have hrec := ih (attempt + 1) (by omega) hlt
        (fun j hj1 hj2 => hpre j (by omega) hj2)
      have hsub : retries - attempt = (retries - (attempt + 1)) + 1 := by omega
      cases hfa : f attempt with
      | ok q =>
        have hq : retryable (Except.ok q) = true := by rw [← hfa]; exact hra
        simp only [retryable, Bool.and_eq_true, Bool.not_eq_true'] at hq
        simp [withRetryGo, hfa, hq.1, hq.2, hlt, hrec, hsub, delaysFrom]
      | error e =>
        simp [withRetryGo, hfa, hlt, hrec, hsub, delaysFrom]

/-- C9: `withRetry` returns the first response whose status fulfils the
no-retry conditions (ok, or 4xx other than 429) without a further attempt;
when every attempt up to `retries` yields a 5xx or 429 response or a thrown
error it waits `2 ^ attempt * 1000` milliseconds before each retry and
returns the outcome of the last attempt; when every attempt throws, the last
thrown error is rethrown. -/
theorem withRetry_functional_spec :
    (∀ f retries i r, i ≤ retries →
        (∀ j, j < i → retry5xxOr429 (f j) = true) →
        f i = Except.ok r → (noRetryStatus r || respOk r) = true →
        withRetry f retries = ⟨Except.ok r, i + 1, delaysFrom 0 i⟩) ∧
    (∀ f retries, (∀ j, j ≤ retries → retry5xxOr429 (f j) = true) →
        withRetry f retries = ⟨f retries, retries + 1, delaysFrom 0 retries⟩) ∧
    (∀ f retries e, (∀ j, j ≤ retries → ∃ ej, f j = Except.error ej) →
        f retries = Except.error e →
        (withRetry f retries).result = Except.error e) := by
  refine ⟨?first, ?exhaust, ?thrown⟩
  case first =>
    intro f retries i r hir hpre hi hr
    have h := withRetryGo_first_return f retries r hr (retries + 1) 0 i (by omega)
      (Nat.zero_le i) hir
      (fun j hj1 hj2 => retryable_of_retry5xxOr429 _ (hpre j hj2)) hi
    simpa [withRetry] using h
  case exhaust =>
    intro f retries hpre
    have h := withRetryGo_exhaust f retries (retries + 1) 0 (by omega) (Nat.zero_le _)
      (fun j hj1 hj2 => retryable_of_retry5xxOr429 _ (hpre j hj2))
    simpa [withRetry] using h
  case thrown =>
    intro f retries e hall hlast
    have hpre : ∀ j, j ≤ retries → retryable (f j) = true := by
      intro j hj
      obtain ⟨ej, hej⟩ := hall j hj
      rw [hej]; rfl
    have h := withRetryGo_exhaust f retries (retries + 1) 0 (by omega) (Nat.zero_le _)
      (fun j hj1 hj2 => hpre j hj2)
    simp [withRetry, h, hlast]

/-- Witness for C9: concrete runs exercising all three conjuncts. -/
theorem withRetry_functional_spec_witness :
    (withRetry (fun j => if j = 0 then Except.ok ⟨500⟩ else Except.ok ⟨200⟩) 3 =
        ⟨Except.ok ⟨200⟩, 2, [1000]⟩) ∧
    (withRetry (fun _ => Except.ok ⟨429⟩) 2 =
        ⟨Except.ok ⟨429⟩, 3, [1000, 2000]⟩) ∧
    ((withRetry (fun j => Except.error (j + 5)) 2).result = Except.error 7) :=
  ⟨withRetry_functional_spec.1 _ 3 1 _ (by decide)
      (fun j hj => by
        have hj0 : j = 0 := by omega
        subst hj0; decide)
      rfl (by decide),
   withRetry_functional_spec.2.1 _ 2 (fun j hj => by decide),
   withRetry_functional_spec.2.2 _ 2 7 (fun j hj => ⟨j + 5, rfl⟩) rfl⟩

/-- C8 counterexample: a request that keeps failing with status 500 is
attempted 4 times (with backoff waits of 1000, 2000 and 4000 ms) under the
default retries bound of 3, so a failing request does not propagate after
exactly one attempt. -/
theorem withRetry_retries_failing_500 :
    withRetry (fun _ => Except.ok ⟨500⟩) 3 =
      ⟨Except.ok ⟨500⟩, 4, [1000, 2000, 4000]⟩ ∧ (4 : Nat) ≠ 1 :=
  ⟨rfl, by decide⟩

/-- C8 amended: a failing response with a 4xx status other than 429 is
returned after exactly one attempt, with no retry and no backoff wait. -/
theorem withRetry_no_retry_on_4xx (f : Nat → Except Nat Resp) (retries : Nat)
    (r : Resp) (h0 : f 0 = Except.ok r) (hns : noRetryStatus r = true) :
    withRetry f retries = ⟨Except.ok r, 1, []⟩ := by
  simp [withRetry, withRetryGo, h0, hns]

/-- Witness for the amended C8: a 404 response is returned after one attempt. -/
theorem withRetry_no_retry_on_4xx_witness :
    noRetryStatus ⟨404⟩ = true ∧
    withRetry (fun _ => Except.ok ⟨404⟩) 3 = ⟨Except.ok ⟨404⟩, 1, []⟩ :=
  ⟨by decide, withRetry_no_retry_on_4xx _ 3 _ rfl (by decide)⟩

/-! ## user_settings data model (migration 001, settings.routes.ts lines 43-160) -/

/-- A row of the `user_settings` table, with the column defaults of the
CREATE TABLE statement (lines 49-81 of the migration).  Times of day are kept
as their SQL text, timestamps as abstract Nat instants. -/
structure SettingsRow where
  currency : String := "USD"
  language : String := "en"
  timezone : String := "UTC"
  date_format : String := "MM/DD/YYYY"
  theme : String := "light"
  email_notifications : Bool := true
  sms_notifications : Bool := false
  low_stock_alerts : Bool := true
  daily_reports : Bool := true
  weekly_reports : Bool := true
  monthly_reports : Bool := false
  auto_reporting : Bool := true
  business_hours_start : String := "08:00:00"
  business_hours_end : String := "18:00:00"
  working_days : List Nat := [1, 2, 3, 4, 5]
  created_at : Nat := 0
  updated_at : Nat := 0
deriving DecidableEq, Repr

/-- The default-valued row created at instant `now` (all column defaults,
`created_at` and `updated_at` from `CURRENT_TIMESTAMP`). -/
def defaultSettings (now : Nat) : SettingsRow :=
  { created_at := now, updated_at := now }

/-- CHECK constraint `currency IN ('USD', 'RWF')` (line 54). -/
def validCurrency (s : String) : Bool := s == "USD" || s == "RWF"

/-- CHECK constraint `language IN ('en', 'rw')` (line 57). -/
def validLanguage (s : String) : Bool := s == "en" || s == "rw"

/-- CHECK constraint `theme IN ('light', 'dark', 'system')` (line 62). -/
def validTheme (s : String) : Bool := s == "light" || s == "dark" || s == "system"

/-- A partial update payload for PUT /settings: every column optional. -/
structure SettingsPayload where
  currency : Option String := none
  language : Option String := none
  timezone : Option String := none
  date_format : Option String := none
  theme : Option String := none
  email_notifications : Option Bool := none
  sms_notifications : Option Bool := none
  low_stock_alerts : Option Bool := none
  daily_reports : Option Bool := none
  weekly_reports : Option Bool := none
  monthly_reports : Option Bool := none
  auto_reporting : Option Bool := none
  business_hours_start : Option String := none
  business_hours_end : Option String := none
  working_days : Option (List Nat) := none
deriving Repr

/-- `optHolds p o` is true when the optional value `o`, if present,
fulfils `p` (absent fields are vacuously valid). -/
def optHolds (p : α → Bool) : Option α → Bool
  | none => true
  | some a => p a

/-- Validation of the enumerated fields of a payload against their closed
value sets, as the CHECK constraints of the table demand. -/
def validatePayload (p : SettingsPayload) : Bool :=
  optHolds validCurrency p.currency &&
  optHolds validLanguage p.language &&
  optHolds validTheme p.theme

/-- Merge a payload into an existing row: fields present in the payload are
replaced, absent fields keep the stored value, and the
`update_user_settings_updated_at` trigger (migration lines 90-103) stamps
`updated_at` with the current instant. -/
def mergeRow (row : SettingsRow) (p : SettingsPayload) (now : Nat) : SettingsRow :=
  { currency := p.currency.getD row.currency
    language := p.language.getD row.language
    timezone := p.timezone.getD row.timezone
    date_format := p.date_format.getD row.date_format
    theme := p.theme.getD row.theme
    email_notifications := p.email_notifications.getD row.email_notifications
    sms_notifications := p.sms_notifications.getD row.sms_notifications
    low_stock_alerts := p.low_stock_alerts.getD row.low_stock_alerts
    daily_reports := p.daily_reports.getD row.daily_reports
    weekly_reports := p.weekly_reports.getD row.weekly_reports
    monthly_reports := p.monthly_reports.getD row.monthly_reports
    auto_reporting := p.auto_reporting.getD row.auto_reporting
    business_hours_start := p.business_hours_start.getD row.business_hours_start
    business_hours_end := p.business_hours_end.getD row.business_hours_end
    working_days := p.working_days.getD row.working_days
    created_at := row.created_at
    updated_at := now }

/-- The `user_settings` table: an association list from user id to row.  The
unique index `idx_user_settings_user_id` (line 84) is the `keysNodup`
invariant below. -/
def SettingsTable : Type := List (Nat × SettingsRow)

/-- SELECT the settings row of a user, if any. -/
def lookupSettings : List (Nat × SettingsRow) → Nat → Option SettingsRow
  | [], _ => none
  | q :: rest, uid => if q.1 = uid then some q.2 else lookupSettings rest uid

/-- UPDATE the row of `uid` when present, INSERT it otherwise (the upsert the
handler performs, keyed by the unique index on user_id). -/
def upsert : List (Nat × SettingsRow) → Nat → SettingsRow → List (Nat × SettingsRow)
  | [], uid, row => [(uid, row)]
  | q :: rest, uid, row =>
    if q.1 = uid then (uid, row) :: rest else q :: upsert rest uid row

/-- The uniqueness invariant of `idx_user_settings_user_id`: no user id owns
two rows. -/
def keysNodup (tbl : List (Nat × SettingsRow)) : Prop :=
  (tbl.map Prod.fst).Nodup

/-- A user id that already owns a row in the table (the NOT EXISTS subquery
of the backfill INSERT, migration lines 132-134). -/
def hasSettingsRow (tbl : List (Nat × SettingsRow)) (uid : Nat) : Bool :=
  tbl.any (fun q => q.1 == uid)

/-- The backfill INSERT of migration 001 (lines 124-134): give every user
without a settings row the default-valued row. -/
def migrationBackfill (tbl : List (Nat × SettingsRow)) (users : List Nat)
    (now : Nat) : List (Nat × SettingsRow) :=
  tbl ++ (users.filter (fun u => !hasSettingsRow tbl u)).map
    (fun u => (u, defaultSettings now))

/-- The database state the migration and the settings slice touch. -/
structure DB where
  users : List Nat
  hasUserSettingsTable : Bool
  user_settings : List (Nat × SettingsRow)
  hasSchemaMigrations : Bool
  schema_migrations : List String
deriving Repr

/-- The migration script 001 (settings.routes.ts lines 43-160): the DO block
creates `user_settings` and backfills it only when the table is absent; then
`schema_migrations` is created IF NOT EXISTS and version 001 recorded with
ON CONFLICT DO NOTHING. -/
def applyMigration001 (db : DB) (now : Nat) : DB :=
  let db1 :=
    if db.hasUserSettingsTable then db
    else { db with
      hasUserSettingsTable := true
      user_settings := migrationBackfill [] db.users now }
  let db2 := { db1 with hasSchemaMigrations := true }
  if "001" ∈ db2.schema_migrations then db2
  else { db2 with schema_migrations := db2.schema_migrations ++ ["001"] }

/-! ## Settings handlers and route pipeline (settings.routes.ts lines 20-32) -/

/-- An HTTP response of the settings slice, as the error taxonomy of the
specification classifies it. -/
inductive HResp where
  | ok (row : SettingsRow)
  | validationError (message : String)
  | unauthorized
deriving Repr

/-- The HTTP status code of a response. -/
def HResp.statusCode : HResp → Nat
  | HResp.ok _ => 200
  | HResp.validationError _ => 400
  | HResp.unauthorized => 401

/-- Modelled from the spec: `getSettingsHandler`
(src/backend/src/handlers/settings, not among the given sources) returns the
settings row of the authenticated user, or the default-valued row when the
user has none, rather than an error. -/
def getSettings (tbl : List (Nat × SettingsRow)) (uid : Nat) (now : Nat) :
    SettingsRow :=
  (lookupSettings tbl uid).getD (defaultSettings now)

/-- Modelled from the spec: `updateSettingsHandler`
(src/backend/src/handlers/settings, not among the given sources) validates
the enumerated fields of a partial payload against their closed value sets,
rejects invalid values with a 400 validation error leaving the store
untouched, and otherwise merges the payload into the existing (or default)
row, refreshes `updated_at` and persists by upsert. -/
def updateSettings (tbl : List (Nat × SettingsRow)) (uid : Nat)
    (p : SettingsPayload) (now : Nat) : HResp × List (Nat × SettingsRow) :=
  if validatePayload p then
    let old := (lookupSettings tbl uid).getD (defaultSettings now)
    let row := mergeRow old p now
    (HResp.ok row, upsert tbl uid row)
  else
    (HResp.validationError "Invalid settings value", tbl)

/-- The HTTP method of a settings route. -/
inductive Method where
  | get
  | put
deriving DecidableEq, Repr

/-- Modelled from the spec: the settings route pipeline of
settings.routes.ts lines 20-32.  `authenticate` (middleware body not among
the given sources) rejects requests without a valid identity with a 401
before any handler runs; `enforceDataIsolation` constrains the handlers to
the row owned by the authenticated user; `apiRateLimit` bounds request rate
and is identity on the data model.  The authenticated handlers are
`getSettings` and `updateSettings`. -/
def handleSettingsRequest (tbl : List (Nat × SettingsRow)) (m : Method)
    (auth : Option Nat) (p : SettingsPayload) (now : Nat) :
    HResp × List (Nat × SettingsRow) :=
  match auth with
  | none => (HResp.unauthorized, tbl)
  | some uid =>
    match m with
    | Method.get => (HResp.ok (getSettings tbl uid now), tbl)
    | Method.put => updateSettings tbl uid p now

/-! ## Helper lemmas on the table operations -/

theorem lookupSettings_upsert_self (tbl : List (Nat × SettingsRow))
    (uid : Nat) (row : SettingsRow) :
    lookupSettings (upsert tbl uid row) uid = some row := by
  induction tbl with
  | nil => simp [upsert, lookupSettings]
  | cons q rest ih =>
    by_cases h : q.1 = uid
    · simp [upsert, lookupSettings, h]
    · simp [upsert, lookupSettings, h, ih]

theorem lookupSettings_upsert_ne (tbl : List (Nat × SettingsRow))
    (uid a : Nat) (row : SettingsRow) (hne : a ≠ uid) :
    lookupSettings (upsert tbl uid row) a = lookupSettings tbl a := by
  have huid : ¬ uid = a := fun hh => hne hh.symm
  induction tbl with
  | nil => simp [upsert, lookupSettings, huid]
  | cons q rest ih =>
    by_cases h : q.1 = uid
    · simp [upsert, lookupSettings, h, huid]
    · simp [upsert, lookupSettings, h, ih]

theorem mem_keys_upsert (tbl : List (Nat × SettingsRow)) (uid a : Nat)
    (row : SettingsRow) (h : a ∈ (upsert tbl uid row).map Prod.fst) :
    a ∈ tbl.map Prod.fst ∨ a = uid := by
  induction tbl with
  | nil =>
    right
    simpa [upsert] using h
  | cons q rest ih =>
    by_cases hq : q.1 = uid
    · rw [show upsert (q :: rest) uid row = (uid, row) :: rest from by
        simp [upsert, hq]] at h
      rw [List.map_cons] at h
      rcases List.mem_cons.mp h with h | h
      · right; exact h
      · left
        rw [List.map_cons]
        exact List.mem_cons_of_mem _ h
    · rw [show upsert (q :: rest) uid row = q :: upsert rest uid row from by
        simp [upsert, hq]] at h
      rw [List.map_cons] at h
      rcases List.mem_cons.mp h with h | h
      · left
        rw [List.map_cons]
        exact List.mem_cons.mpr (Or.inl h)
      · rcases ih h with hmem | heq
        · left
          rw [List.map_cons]
          exact List.mem_cons_of_mem _ hmem
        · right; exact heq

theorem keysNodup_upsert (tbl : List (Nat × SettingsRow)) (uid : Nat)
    (row : SettingsRow) (h : keysNodup tbl) : keysNodup (upsert tbl uid row) := by
  induction tbl with
  | nil => simp [keysNodup, upsert]
  | cons q rest ih =>
    simp only [keysNodup, List.map_cons, List.nodup_cons] at h
    by_cases hq : q.1 = uid
    · rw [show upsert (q :: rest) uid row = (uid, row) :: rest from by
        simp [upsert, hq]]
      simp only [keysNodup, List.map_cons, List.nodup_cons]
      exact ⟨hq ▸ h.1, h.2⟩
    · rw [show upsert (q :: rest) uid row = q :: upsert rest uid row from by
        simp [upsert, hq]]
      simp only [keysNodup, List.map_cons, List.nodup_cons]
      refine ⟨?_, ih h.2⟩
      intro hmem
      rcases mem_keys_upsert rest uid q.1 row hmem with hin | heq
      · exact h.1 hin
      · exact hq heq

theorem hasSettingsRow_iff_mem_keys (tbl : List (Nat × SettingsRow)) (u : Nat) :
    hasSettingsRow tbl u = true ↔ u ∈ tbl.map Prod.fst := by
  simp only [hasSettingsRow, List.any_eq_true, beq_iff_eq, List.mem_map]

theorem keys_map_pair (now : Nat) (l : List Nat) :
    (l.map (fun u => (u, defaultSettings now))).map Prod.fst = l := by
  induction l with
  | nil => rfl
  | cons x xs ih => simp [ih]

theorem keysNodup_migrationBackfill (tbl : List (Nat × SettingsRow))
    (users : List Nat) (now : Nat) (htbl : keysNodup tbl)
    (husers : users.Nodup) : keysNodup (migrationBackfill tbl users now) := by
  simp only [keysNodup, migrationBackfill, List.map_append, List.nodup_append]
  refine ⟨htbl, ?_, ?_⟩
  · rw [keys_map_pair]
    exact husers.filter _
  · intro a hmem hmem2
    rw [keys_map_pair] at hmem2
    have hfil := List.of_mem_filter hmem2
    simp only [Bool.not_eq_true'] at hfil
    rw [← hasSettingsRow_iff_mem_keys tbl a] at hmem
    rw [hmem] at hfil
    cases hfil

/-! ## Claim theorems for the settings slice -/

/-- C1: an update whose payload holds a value outside the closed value set of
an enumerated field (currency not in USD/RWF, language not in en/rw, theme
not in light/dark/system) is rejected with a 400 validation error and the
stored settings are left unchanged. -/
theorem updateSettings_rejects_invalid_enum (tbl : List (Nat × SettingsRow))
    (uid : Nat) (p : SettingsPayload) (now : Nat)
    (h : (∃ c, p.currency = some c ∧ validCurrency c = false) ∨
         (∃ l, p.language = some l ∧ validLanguage l = false) ∨
         (∃ t, p.theme = some t ∧ validTheme t = false)) :
    (updateSettings tbl uid p now).1.statusCode = 400 ∧
    (updateSettings tbl uid p now).2 = tbl := by
  have hval : validatePayload p = false := by
    rcases h with ⟨c, hc, hcv⟩ | ⟨l, hl, hlv⟩ | ⟨t, ht, htv⟩
    · simp [validatePayload, optHolds, hc, hcv]
    · simp [validatePayload, optHolds, hl, hlv]
    · simp [validatePayload, optHolds, ht, htv]
  simp [updateSettings, hval, HResp.statusCode]

/-- Witness for C1: currency EUR is rejected with a 400 and no change. -/
theorem updateSettings_rejects_invalid_enum_witness :
    (updateSettings [] 1 { currency := some "EUR" } 5).1.statusCode = 400 ∧
    (updateSettings [] 1 { currency := some "EUR" } 5).2 = [] :=
  updateSettings_rejects_invalid_enum [] 1 _ 5 (Or.inl ⟨"EUR", rfl, by decide⟩)

/-- C2: for every valid value of currency, language or theme, updating that
field and then reading the settings of the same user returns the value
(update/get round-trip). -/
theorem updateSettings_get_roundtrip :
    (∀ tbl uid v now now2, validCurrency v = true →
      (getSettings (updateSettings tbl uid { currency := some v } now).2
        uid now2).currency = v) ∧
    (∀ tbl uid v now now2, validLanguage v = true →
      (getSettings (updateSettings tbl uid { language := some v } now).2
        uid now2).language = v) ∧
    (∀ tbl uid v now now2, validTheme v = true →
      (getSettings (updateSettings tbl uid { theme := some v } now).2
        uid now2).theme = v) := by
  refine ⟨?_, ?_, ?_⟩
  · intro tbl uid v now now2 hv
    simp [updateSettings, validatePayload, optHolds, hv, getSettings,
      lookupSettings_upsert_self, mergeRow]
  · intro tbl uid v now now2 hv
    simp [updateSettings, validatePayload, optHolds, hv, getSettings,
      lookupSettings_upsert_self, mergeRow]
  · intro tbl uid v now now2 hv
    simp [updateSettings, validatePayload, optHolds, hv, getSettings,
      lookupSettings_upsert_self, mergeRow]

/-- Witness for C2: round-trips of RWF, rw and dark. -/
theorem updateSettings_get_roundtrip_witness :
    (getSettings (updateSettings [] 1 { currency := some "RWF" } 5).2
      1 6).currency = "RWF" ∧
    (getSettings (updateSettings [] 1 { language := some "rw" } 5).2
      1 6).language = "rw" ∧
    (getSettings (updateSettings [] 1 { theme := some "dark" } 5).2
      1 6).theme = "dark" :=
  ⟨updateSettings_get_roundtrip.1 [] 1 "RWF" 5 6 (by decide),
   updateSettings_get_roundtrip.2.1 [] 1 "rw" 5 6 (by decide),
   updateSettings_get_roundtrip.2.2 [] 1 "dark" 5 6 (by decide)⟩

/-- C3: a user with no settings row receives a 200 with the default-valued
row on GET: currency USD, language en, timezone UTC, theme light, date
format MM/DD/YYYY, the six notification and report booleans at their
defaults, business hours 08:00 to 18:00, working days Monday to Friday. -/
theorem getSettings_absent_returns_defaults (tbl : List (Nat × SettingsRow))
    (uid : Nat) (now : Nat) (p : SettingsPayload)
    (habsent : lookupSettings tbl uid = none) :
    handleSettingsRequest tbl Method.get (some uid) p now =
      (HResp.ok (defaultSettings now), tbl) ∧
    (HResp.ok (defaultSettings now)).statusCode = 200 ∧
    (defaultSettings now).currency = "USD" ∧
    (defaultSettings now).language = "en" ∧
    (defaultSettings now).timezone = "UTC" ∧
    (defaultSettings now).theme = "light" ∧
    (defaultSettings now).date_format = "MM/DD/YYYY" ∧
    (defaultSettings now).email_notifications = true ∧
    (defaultSettings now).sms_notifications = false ∧
    (defaultSettings now).low_stock_alerts = true ∧
    (defaultSettings now).daily_reports = true ∧
    (defaultSettings now).weekly_reports = true ∧
    (defaultSettings now).monthly_reports = false ∧
    (defaultSettings now).auto_reporting = true ∧
    (defaultSettings now).business_hours_start = "08:00:00" ∧
    (defaultSettings now).business_hours_end = "18:00:00" ∧
    (defaultSettings now).working_days = [1, 2, 3, 4, 5] := by
  refine ⟨?_, rfl, rfl, rfl, rfl, rfl, rfl, rfl, rfl, rfl, rfl, rfl, rfl,
    rfl, rfl, rfl, rfl⟩
  simp [handleSettingsRequest, getSettings, habsent]

/-- Witness for C3: GET on an empty store returns the defaults. -/
theorem getSettings_absent_returns_defaults_witness :
    handleSettingsRequest [] Method.get (some 7) {} 3 =
      (HResp.ok (defaultSettings 3), []) ∧
    (defaultSettings 3).currency = "USD" :=
  ⟨(getSettings_absent_returns_defaults [] 7 3 {} rfl).1,
   (getSettings_absent_returns_defaults [] 7 3 {} rfl).2.2.1⟩

/-- C4: a valid partial update of an existing row stores exactly the merged
row: fields present in the payload take the payload value, every absent
field keeps its stored value, `created_at` is kept, `updated_at` is
refreshed, and the rows of other users are untouched. -/
theorem updateSettings_partial_frame (tbl : List (Nat × SettingsRow))
    (uid : Nat) (row : SettingsRow) (p : SettingsPayload) (now : Nat)
    (hrow : lookupSettings tbl uid = some row)
    (hval : validatePayload p = true) :
    (updateSettings tbl uid p now).1 = HResp.ok (mergeRow row p now) ∧
    lookupSettings (updateSettings tbl uid p now).2 uid =
      some (mergeRow row p now) ∧
    (∀ b, b ≠ uid →
      lookupSettings (updateSettings tbl uid p now).2 b =
        lookupSettings tbl b) ∧
    (mergeRow row p now).updated_at = now ∧
    (mergeRow row p now).created_at = row.created_at ∧
    (p.currency = none → (mergeRow row p now).currency = row.currency) ∧
    (p.language = none → (mergeRow row p now).language = row.language) ∧
    (p.timezone = none → (mergeRow row p now).timezone = row.timezone) ∧
    (p.date_format = none → (mergeRow row p now).date_format = row.date_format) ∧
    (p.theme = none → (mergeRow row p now).theme = row.theme) ∧
    (p.email_notifications = none →
      (mergeRow row p now).email_notifications = row.email_notifications) ∧
    (p.sms_notifications = none →
      (mergeRow row p now).sms_notifications = row.sms_notifications) ∧
    (p.low_stock_alerts = none →
      (mergeRow row p now).low_stock_alerts = row.low_stock_alerts) ∧
    (p.daily_reports = none →
      (mergeRow row p now).daily_reports = row.daily_reports) ∧
    (p.weekly_reports = none →
      (mergeRow row p now).weekly_reports = row.weekly_reports) ∧
    (p.monthly_reports = none →
      (mergeRow row p now).monthly_reports = row.monthly_reports) ∧
    (p.auto_reporting = none →
      (mergeRow row p now).auto_reporting = row.auto_reporting) ∧
    (p.business_hours_start = none →
      (mergeRow row p now).business_hours_start = row.business_hours_start) ∧
    (p.business_hours_end = none →
      (mergeRow row p now).business_hours_end = row.business_hours_end) ∧
    (p.working_days = none →
      (mergeRow row p now).working_days = row.working_days) ∧
    (∀ v, p.currency = some v → (mergeRow row p now).currency = v) ∧
    (∀ v, p.language = some v → (mergeRow row p now).language = v) ∧
    (∀ v, p.theme = some v → (mergeRow row p now).theme = v) := by
  have hmain : updateSettings tbl uid p now =
      (HResp.ok (mergeRow row p now), upsert tbl uid (mergeRow row p now)) := by
    simp [updateSettings, hval, hrow]
  refine ⟨by rw [hmain], ?_, ?_, rfl, rfl,
    fun h => by simp [mergeRow, h], fun h => by simp [mergeRow, h],
    fun h => by simp [mergeRow, h], fun h => by simp [mergeRow, h],
    fun h => by simp [mergeRow, h], fun h => by simp [mergeRow, h],
    fun h => by simp [mergeRow, h], fun h => by simp [mergeRow, h],
    fun h => by simp [mergeRow, h], fun h => by simp [mergeRow, h],
    fun h => by simp [mergeRow, h], fun h => by simp [mergeRow, h],
    fun h => by simp [mergeRow, h], fun h => by simp [mergeRow, h],
    fun h => by simp [mergeRow, h],
    fun v h => by simp [mergeRow, h], fun v h => by simp [mergeRow, h],
    fun v h => by simp [mergeRow, h]⟩
  · rw [hmain]
    exact lookupSettings_upsert_self tbl uid (mergeRow row p now)
  · intro b hb
    rw [hmain]
    exact lookupSettings_upsert_ne tbl uid b (mergeRow row p now) hb

/-- Witness for C4: PUT currency RWF then GET returns currency RWF with
language still at its prior value en. -/
theorem updateSettings_partial_frame_witness :
    lookupSettings (updateSettings [(1, defaultSettings 0)] 1
        { currency := some "RWF" } 5).2 1 =
      some (mergeRow (defaultSettings 0) { currency := some "RWF" } 5) ∧
    (mergeRow (defaultSettings 0) { currency := some "RWF" } 5).currency =
      "RWF" ∧
    (mergeRow (defaultSettings 0) { currency := some "RWF" } 5).language =
      "en" :=
  have h := updateSettings_partial_frame [(1, defaultSettings 0)] 1
    (defaultSettings 0) { currency := some "RWF" } 5 rfl (by decide)
  ⟨h.2.1, by decide, by decide⟩

/-- C5: the uniqueness invariant of `idx_user_settings_user_id` (0 or 1 row
per user id) is preserved by GET (which writes nothing), by PUT (an upsert
keyed on user id), by the migration backfill INSERT (which only inserts for
users without a row), and by the whole migration script. -/
theorem settings_uniqueness_invariant :
    (∀ tbl uid p now,
      (handleSettingsRequest tbl Method.get (some uid) p now).2 = tbl) ∧
    (∀ tbl uid p now, keysNodup tbl →
      keysNodup (handleSettingsRequest tbl Method.put (some uid) p now).2) ∧
    (∀ tbl users now, keysNodup tbl → users.Nodup →
      keysNodup (migrationBackfill tbl users now)) ∧
    (∀ db now, db.users.Nodup → keysNodup db.user_settings →
      keysNodup (applyMigration001 db now).user_settings) := by
  refine ⟨?_, ?_, ?_, ?_⟩
  · intro tbl uid p now; rfl
  · intro tbl uid p now h
    by_cases hval : validatePayload p = true
    · simp only [handleSettingsRequest, updateSettings, hval, if_true]
      exact keysNodup_upsert _ _ _ h
    · simp only [handleSettingsRequest, updateSettings, hval, if_false]
      simpa using h
  · intro tbl users now h1 h2
    exact keysNodup_migrationBackfill _ _ _ h1 h2
  · rintro ⟨users, ht, us, hm, sm⟩ now hu h
    have hb : keysNodup (migrationBackfill [] users now) :=
      keysNodup_migrationBackfill [] users now (by simp [keysNodup]) hu
    cases ht with
    | false =>
      by_cases hc : "001" ∈ sm
      · simpa [applyMigration001, hc] using hb
      · simpa [applyMigration001, hc] using hb
    | true =>
      by_cases hc : "001" ∈ sm
      · simpa [applyMigration001, hc] using h
      · simpa [applyMigration001, hc] using h

/-- Witness for C5: concrete runs of PUT, backfill and the migration keep
the keys duplicate-free. -/
theorem settings_uniqueness_invariant_witness :
    keysNodup (handleSettingsRequest [(1, defaultSettings 0)] Method.put
      (some 2) { currency := some "RWF" } 5).2 ∧
    keysNodup (migrationBackfill [(1, defaultSettings 0)] [1, 2, 3] 7) ∧
    keysNodup (applyMigration001 ⟨[1, 2], false, [], false, []⟩ 4).user_settings :=
  ⟨settings_uniqueness_invariant.2.1 _ 2 _ 5 (by simp [keysNodup]),
   settings_uniqueness_invariant.2.2.1 _ [1, 2, 3] 7 (by simp [keysNodup])
     (by decide),
   settings_uniqueness_invariant.2.2.2 ⟨[1, 2], false, [], false, []⟩ 4
     (by decide) (by simp [keysNodup])⟩

/-- C6: after a successful PUT by a user holding a row, and with the clock
past the row's previous audit instant (CURRENT_TIMESTAMP moves forward), the
stored `updated_at` is strictly greater than before: the trigger refreshes
it on every update. -/
theorem updated_at_strictly_increases (tbl : List (Nat × SettingsRow))
    (uid : Nat) (row : SettingsRow) (p : SettingsPayload) (now : Nat)
    (hrow : lookupSettings tbl uid = some row)
    (hval : validatePayload p = true)
    (hclock : row.updated_at < now) :
    ∃ row2, lookupSettings (updateSettings tbl uid p now).2 uid = some row2 ∧
      row.updated_at < row2.updated_at := by
  refine ⟨mergeRow row p now, ?_, ?_⟩
  · simp [updateSettings, hval, hrow, lookupSettings_upsert_self]
  · simpa [mergeRow] using hclock

/-- Witness for C6: a PUT at instant 5 on a row last updated at 0. -/
theorem updated_at_strictly_increases_witness :
    ∃ row2, lookupSettings (updateSettings [(1, defaultSettings 0)] 1
        { theme := some "dark" } 5).2 1 = some row2 ∧
      (defaultSettings 0).updated_at < row2.updated_at :=
  updated_at_strictly_increases [(1, defaultSettings 0)] 1 (defaultSettings 0)
    { theme := some "dark" } 5 rfl (by decide) (by decide)

/-- C7: a request without a valid identity is answered 401 by the
`authenticate` middleware before any handler runs and leaves the store
untouched; and for distinct users A and B, a request authenticated as B gets
a response independent of the content of A's row (two-run noninterference)
and leaves A's row unchanged. -/
theorem settings_auth_and_isolation :
    (∀ tbl m p now, handleSettingsRequest tbl m none p now =
        (HResp.unauthorized, tbl) ∧ HResp.unauthorized.statusCode = 401) ∧
    (∀ tbl1 tbl2 a b m p now, a ≠ b →
      (∀ u, u ≠ a → lookupSettings tbl1 u = lookupSettings tbl2 u) →
      (handleSettingsRequest tbl1 m (some b) p now).1 =
        (handleSettingsRequest tbl2 m (some b) p now).1) ∧
    (∀ tbl a b m p now, a ≠ b →
      lookupSettings (handleSettingsRequest tbl m (some b) p now).2 a =
        lookupSettings tbl a) := by
  refine ⟨?_, ?_, ?_⟩
  · intro tbl m p now
    exact ⟨rfl, rfl⟩
  · intro tbl1 tbl2 a b m p now hab hiso
    have hbb : lookupSettings tbl1 b = lookupSettings tbl2 b :=
      hiso b (fun he => hab he.symm)
    cases m with
    | get => simp [handleSettingsRequest, getSettings, hbb]
    | put =>
      by_cases hval : validatePayload p = true
      · simp [handleSettingsRequest, updateSettings, hval, hbb]
      · simp [handleSettingsRequest, updateSettings, hval]
  · intro tbl a b m p now hab
    cases m with
    | get => rfl
    | put =>
      by_cases hval : validatePayload p = true
      · simp only [handleSettingsRequest, updateSettings, hval, if_true]
        exact lookupSettings_upsert_ne tbl b a _ hab
      · simp [handleSettingsRequest, updateSettings, hval]

/-- Witness for C7: a 401 without credentials; user 2 sees the same response
whether or not user 1 has a row, and a PUT of user 2 leaves the row of
user 1 as it was. -/
theorem settings_auth_and_isolation_witness :
    handleSettingsRequest [] Method.get none {} 0 = (HResp.unauthorized, []) ∧
    (handleSettingsRequest [(1, defaultSettings 9)] Method.get (some 2) {} 0).1 =
      (handleSettingsRequest [] Method.get (some 2) {} 0).1 ∧
    lookupSettings (handleSettingsRequest [(1, defaultSettings 9)] Method.put
        (some 2) { currency := some "RWF" } 5).2 1 =
      lookupSettings [(1, defaultSettings 9)] 1 :=
  ⟨(settings_auth_and_isolation.1 [] Method.get {} 0).1,
   settings_auth_and_isolation.2.1 [(1, defaultSettings 9)] [] 1 2 Method.get
     {} 0 (by decide)
     (fun u hu => by
       have h1 : ¬ (1 = u) := fun hh => hu hh.symm
       simp [lookupSettings, h1]),
   settings_auth_and_isolation.2.2 [(1, defaultSettings 9)] 1 2 Method.put
     { currency := some "RWF" } 5 (by decide)⟩

/-- C10: migration 001 is idempotent: when `user_settings` already exists the
DO block changes nothing, and re-recording version 001 hits ON CONFLICT DO
NOTHING, so running the script twice equals running it once. -/
theorem applyMigration001_idempotent (db : DB) (now now2 : Nat) :
    applyMigration001 (applyMigration001 db now) now2 =
      applyMigration001 db now := by
  rcases db with ⟨users, ht, us, hm, sm⟩
  cases ht <;> by_cases hc : "001" ∈ sm <;>
    simp [applyMigration001, hc]
